import Mathlib

/-!
Verification development for the Duproject repository (a Python-project
duplicate finder).  The definitions below are a shallow embedding of the
source files `src/model/finder_model.py`, `src/model/project_model.py` and
`src/config.py`; numbers that are Python floats are modelled as rationals
(exact arithmetic), Python ints as `Int`/`Nat`, and fallible operations as
`Option`.
-/

namespace Duproject

/-! ## Data model: `ProjectModel` (src/model/project_model.py)

Only the attributes that the similarity engine, the grouper and the JSON
serialisation read are carried: `path`, `name`, `file_count`, `size`,
`last_modified`, `python_files`, `project_files` and the three lazily
computed optional fields.

`last_modified` holds one of two kinds of value, mirroring the source:

* `stamp t` — the numeric timestamp state: `__init__` sets the field to
  `0` and then, when `os.stat(path)` succeeds, to the raw float
  `st_mtime` (project_model.py, lines 29 and 43); `_analyze_project`
  replaces it with a `datetime` only when the analysis collected at least
  one file with a positive mtime (line 124), so a classified directory
  whose only Python-extension files are `.pyw`/`.pyx`/`.pyi`/`.pyc` (the
  analysis walk collects `.py` files only, line 98) keeps the raw float.
  `stamp 0` is falsy, `stamp (t+1)` truthy.
* `dateTime t` — a `datetime` (always truthy), serialised via
  `isoformat`/`fromisoformat`, which round-trips; it is modelled as an
  abstract `Nat` tick count. -/

inductive LastModified where
  | stamp (t : Nat)
  | dateTime (t : Nat)
deriving DecidableEq

/-- Python truthiness of the `last_modified` field: numbers are falsy
exactly when zero, `datetime` objects are always truthy. -/
def lmTruthy : LastModified → Bool
  | .stamp t => t != 0
  | .dateTime _ => true

structure Project where
  path : String
  name : String
  file_count : Int
  size : Int
  last_modified : LastModified
  python_files : List String
  project_files : List String
  real_size : Option Int
  real_file_count : Option Int
  folder_hash : Option String
deriving DecidableEq

/-! ## difflib.SequenceMatcher (Python standard library)

`FinderModel._calculate_similarity` compares file-name lists and project
names with `difflib.SequenceMatcher(None, a, b).ratio()`.  The embedding
below follows CPython's `difflib.py`: `__chain_b` builds `b2j` (with the
autojunk purge of popular elements when `len(b) >= 200`; `isjunk` is
`None` in all call sites, so the junk set is empty and the junk-extension
loops of `find_longest_match` are no-ops), `find_longest_match` scans rows
with the `j2len`/`newj2len` dictionaries and then extends the best block,
`get_matching_blocks` recursively decomposes the two sequences, and
`ratio` is `2*M/T` (or `1.0` when both sequences are empty).  The
while-loops and the block recursion are given explicit fuel; the fuel
chosen at each call site dominates the loop/recursion depth, so the
embedded functions agree with the unbounded originals. -/

def b2jOf [DecidableEq α] [Inhabited α] (b : List α) (x : α) : List Nat :=
  let idxs := (List.range b.length).filter (fun j => decide (b.getD j default = x))
  if 200 ≤ b.length ∧ b.length / 100 + 1 < idxs.length then [] else idxs

def flmRow (i blo bhi : Nat) :
    List Nat → (Nat → Nat) → (Nat → Nat) → Nat × Nat × Nat →
    (Nat → Nat) × (Nat × Nat × Nat)
  | [], _, newj2len, best => (newj2len, best)
  | j :: rest, j2len, newj2len, best =>
    if j < blo then flmRow i blo bhi rest j2len newj2len best
    else if bhi ≤ j then (newj2len, best)
    else
      let k := (if j = 0 then 0 else j2len (j - 1)) + 1
      let newj2len' := fun j' => if j' = j then k else newj2len j'
      let best' := if best.2.2 < k then (i + 1 - k, j + 1 - k, k) else best
      flmRow i blo bhi rest j2len newj2len' best'

def flmScan [DecidableEq α] [Inhabited α] (a : List α) (b2j : α → List Nat)
    (blo bhi : Nat) : Nat → Nat → (Nat → Nat) → Nat × Nat × Nat → Nat × Nat × Nat
  | _, 0, _, best => best
  | i, n + 1, j2len, best =>
    let r := flmRow i blo bhi (b2j (a.getD i default)) j2len (fun _ => 0) best
    flmScan a b2j blo bhi (i + 1) n r.1 r.2

def extendLower [DecidableEq α] [Inhabited α] (a b : List α) (alo blo : Nat) :
    Nat → Nat → Nat → Nat → Nat × Nat × Nat
  | 0, besti, bestj, bestsize => (besti, bestj, bestsize)
  | fuel + 1, besti, bestj, bestsize =>
    if alo < besti ∧ blo < bestj ∧
        a.getD (besti - 1) default = b.getD (bestj - 1) default then
      extendLower a b alo blo fuel (besti - 1) (bestj - 1) (bestsize + 1)
    else (besti, bestj, bestsize)

def extendUpper [DecidableEq α] [Inhabited α] (a b : List α) (ahi bhi : Nat) :
    Nat → Nat → Nat → Nat → Nat × Nat × Nat
  | 0, besti, bestj, bestsize => (besti, bestj, bestsize)
  | fuel + 1, besti, bestj, bestsize =>
    if besti + bestsize < ahi ∧ bestj + bestsize < bhi ∧
        a.getD (besti + bestsize) default = b.getD (bestj + bestsize) default then
      extendUpper a b ahi bhi fuel besti bestj (bestsize + 1)
    else (besti, bestj, bestsize)

def findLongestMatch [DecidableEq α] [Inhabited α] (a b : List α)
    (b2j : α → List Nat) (alo ahi blo bhi : Nat) : Nat × Nat × Nat :=
  let s := flmScan a b2j blo bhi alo (ahi - alo) (fun _ => 0) (alo, blo, 0)
  let l := extendLower a b alo blo s.1 s.1 s.2.1 s.2.2
  extendUpper a b ahi bhi ahi l.1 l.2.1 l.2.2

def matchingTotalF [DecidableEq α] [Inhabited α] (a b : List α)
    (b2j : α → List Nat) : Nat → Nat → Nat → Nat → Nat → Nat
  | 0, _, _, _, _ => 0
  | fuel + 1, alo, ahi, blo, bhi =>
    let m := findLongestMatch a b b2j alo ahi blo bhi
    let i := m.1
    let j := m.2.1
    let k := m.2.2
    if k = 0 then 0
    else
      k + (if alo < i ∧ blo < j then matchingTotalF a b b2j fuel alo i blo j else 0)
        + (if i + k < ahi ∧ j + k < bhi then
            matchingTotalF a b b2j fuel (i + k) ahi (j + k) bhi else 0)

def matchingTotal [DecidableEq α] [Inhabited α] (a b : List α) : Nat :=
  matchingTotalF a b (b2jOf b) (a.length + b.length + 1) 0 a.length 0 b.length

/-- Embedding of `SequenceMatcher.ratio()`: `2*M/T`, and `1.0` when both
sequences are empty (`_calculate_ratio` with `length == 0`). -/
def ratioQ [DecidableEq α] [Inhabited α] (a b : List α) : ℚ :=
  if a.length + b.length = 0 then 1
  else 2 * (matchingTotal a b : ℚ) / ((a.length : ℚ) + (b.length : ℚ))

/-! ## Similarity engine: `FinderModel._calculate_similarity` -/

def basenameData : List Char → List Char → List Char
  | [], acc => acc.reverse
  | c :: cs, acc => if c = '/' then basenameData cs [] else basenameData cs (c :: acc)

/-- Embedding of `os.path.basename` (POSIX): the part after the last
slash. -/
def basename (s : String) : String :=
  ⟨basenameData s.data []⟩

/-- Python string comparison: lexicographic on code points. -/
def charListLe : List Char → List Char → Bool
  | [], _ => true
  | _ :: _, [] => false
  | c :: cs, d :: ds =>
    if c.toNat < d.toNat then true
    else if d.toNat < c.toNat then false
    else charListLe cs ds

def strLe (s t : String) : Bool := charListLe s.data t.data

def insertStr (x : String) : List String → List String
  | [] => [x]
  | y :: ys => if strLe y x then y :: insertStr x ys else x :: y :: ys

/-- Embedding of Python's `sorted` on a list of strings (stable; strings
compare lexicographically by code point). -/
def pySorted (l : List String) : List String := l.foldr insertStr []

/-- Truthiness of an optional Python string: `None` and `""` are falsy. -/
def hashTruthy : Option String → Bool
  | none => false
  | some h => !(h == "")

def fileSimilarity (p1 p2 : Project) : ℚ :=
  ratioQ (pySorted (p1.python_files.map basename))
         (pySorted (p2.python_files.map basename))

def nameSimilarity (p1 p2 : Project) : ℚ :=
  ratioQ p1.name.data p2.name.data

def sizeSimilarity (p1 p2 : Project) : ℚ :=
  match p1.real_size, p2.real_size with
  | some s1, some s2 =>
    if 0 < s1 ∧ 0 < s2 then ((min s1 s2 : Int) : ℚ) / ((max s1 s2 : Int) : ℚ) else 0
  | _, _ => 0

/-- Embedding of `FinderModel._calculate_similarity` (finder_model.py,
lines 258-318), with Python floats modelled as rationals. -/
def calculateSimilarity (p1 p2 : Project) : ℚ :=
  if p1.python_files = [] ∨ p2.python_files = [] then 0
  else if hashTruthy p1.folder_hash ∧ hashTruthy p2.folder_hash ∧
      p1.folder_hash = p2.folder_hash then 1
  else
    let fs := fileSimilarity p1 p2
    let ns := nameSimilarity p1 p2
    let ss := sizeSimilarity p1 p2
    if p1.real_size ≠ none ∧ p2.real_size ≠ none then
      fs * (6 / 10) + ns * (2 / 10) + ss * (2 / 10)
    else
      fs * (7 / 10) + ns * (3 / 10)

/-! ## Matcher validity predicates: every reported block lies inside the
requested ranges. -/

def BestValid (alo ahi blo bhi : Nat) (t : Nat × Nat × Nat) : Prop :=
  alo ≤ t.1 ∧ t.1 + t.2.2 ≤ ahi ∧ blo ≤ t.2.1 ∧ t.2.1 + t.2.2 ≤ bhi

def J2Inv (alo blo bhi bound : Nat) (f : Nat → Nat) : Prop :=
  ∀ j, f j ≠ 0 → blo ≤ j ∧ j < bhi ∧ f j + blo ≤ j + 1 ∧ f j + alo ≤ bound

/-! ## Filesystem model and configuration (src/config.py)

A directory tree is modelled by the mutual inductives `FSEntry`/`FSList`.
A directory carries a `boom` flag: entering it raises an unexpected
(non-`OSError`) runtime exception, modelling the fault class of spec
section 7(c) (e.g. a failing progress callback); `boom := false`
everywhere gives the ordinary fault-free filesystem.  A file carries its
byte size, its integer mtime, and its content bytes. -/

structure FileData where
  size : Nat
  mtime : Nat
  content : List Nat
deriving DecidableEq

mutual
inductive FSEntry where
  | file (name : String) (data : FileData)
  | dir (name : String) (boom : Bool) (entries : FSList)
inductive FSList where
  | nil
  | cons (e : FSEntry) (rest : FSList)
end

def FSList.ofList : List FSEntry → FSList
  | [] => .nil
  | e :: rest => .cons e (FSList.ofList rest)

def IGNORED_DIRECTORIES : List String :=
  ["__pycache__", "venv", ".venv", "env", ".git", ".idea", ".vscode",
   "node_modules", "build", "dist", ".pytest_cache", ".mypy_cache", ".tox",
   ".eggs", "cache", "thumbnails"]

def PYTHON_EXTENSIONS : List String := [".py", ".pyw", ".pyx", ".pyi", ".pyc"]

def IGNORED_FILE_EXTENSIONS : List String :=
  [".jpg", ".jpeg", ".png", ".gif", ".bmp", ".tiff", ".svg", ".webp", ".ico",
   ".heic", ".heif", ".psd", ".ai", ".eps", ".raw", ".cr2", ".nef", ".dng",
   ".mp4", ".avi", ".mov", ".wmv", ".flv", ".mkv"]

def PROJECT_ROOT_FILES : List String :=
  ["README.md", "README.txt", "readme.md", "readme.txt", ".env",
   "requirements.txt", "setup.py", "pyproject.toml", "Pipfile", "poetry.lock",
   ".gitignore", "LICENSE", "setup.cfg", "tox.ini", "manage.py", "README.rst",
   "MANIFEST.in", "Dockerfile", "docker-compose.yml"]

def SIMILARITY_THRESHOLD : ℚ := 7 / 10

/-- Python `str.lower()` restricted to ASCII (all names in the
configuration lists are ASCII). -/
def strLower (s : String) : String := ⟨s.data.map Char.toLower⟩

def endsWithData (suff s : List Char) : Bool :=
  if s.length < suff.length then false
  else (s.drop (s.length - suff.length)) == suff

/-- Python `str.endswith`. -/
def pyEndsWith (s suff : String) : Bool := endsWithData suff.data s.data

/-- Embedding of the ignored-extension test `any(item.lower().endswith(ext)
for ext in self.ignored_file_extensions)` used by the classifiers. -/
def hasIgnoredExt (name : String) : Bool :=
  IGNORED_FILE_EXTENSIONS.any (fun ext => pyEndsWith (strLower name) ext)

/-! ## Directory classifier (finder_model.py, `is_python_project` and
`is_project_root`) -/

/-- Embedding of `FinderModel.is_python_project`: iterate the directory
listing; regular files with an ignored extension are skipped; the first
file whose name ends with a configured Python extension yields `True`. -/
def isPythonProject : FSList → Bool
  | .nil => false
  | .cons (.file name _) rest =>
    if hasIgnoredExt name then isPythonProject rest
    else if PYTHON_EXTENSIONS.any (fun ext => pyEndsWith name ext) then true
    else isPythonProject rest
  | .cons (.dir _ _ _) rest => isPythonProject rest

def entryName : FSEntry → String
  | .file n _ => n
  | .dir n _ _ => n

/-- First directory entry with the given name (directory listings contain
each name once). -/
def lookupEntry (name : String) : FSList → Option FSEntry
  | .nil => none
  | .cons e rest => if entryName e = name then some e else lookupEntry name rest

/-- Embedding of `FinderModel.is_project_root`: for each configured
root-marker name, check that the listing contains it, that it is a regular
file, and that its extension is not ignored. -/
def isProjectRoot (l : FSList) : Bool :=
  PROJECT_ROOT_FILES.any fun rf =>
    match lookupEntry rf l with
    | some (.file _ _) => !(hasIgnoredExt rf)
    | _ => false

/-! ## Recursive scanner (finder_model.py, `find_python_projects`)

`walkEntry`/`walkList` embed `find_projects_recursive` with `worker =
None`.  A discovered project is recorded by its path (the analysis pass
`ProjectModel._analyze_project` only fills the record's own attributes and
cannot affect which directories are classified).  The second component of
the result is `true` when an unexpected runtime exception escaped (a
`boom` directory was entered); the accumulated project list is preserved,
matching the in-place mutation of `self.projects`.  An exception aborts
the sibling loop, exactly as in Python where only `OSError` is caught
around the loop. -/

def ignoredDirMem (n : String) : Bool := IGNORED_DIRECTORIES.contains n

mutual
def walkEntry (path : String) (e : FSEntry) (isRoot ppy ppr : Bool)
    (acc : List String) : List String × Bool :=
  match e with
  | .file _ _ => (acc, false)
  | .dir _ boom entries =>
    if boom then (acc, true)
    else if 255 < path.length then (acc, false)
    else
      let isPy := isPythonProject entries
      let isPr := isProjectRoot entries
      if !isRoot && (isPy || isPr) && !(ppy || ppr) then (acc ++ [path], false)
      else walkList path entries (ppy || isPy) (ppr || isPr) acc
termination_by structural e

def walkList (path : String) (l : FSList) (ppy ppr : Bool)
    (acc : List String) : List String × Bool :=
  match l with
  | .nil => (acc, false)
  | .cons e rest =>
    match e with
    | .file _ _ => walkList path rest ppy ppr acc
    | .dir name _ _ =>
      if ignoredDirMem name then walkList path rest ppy ppr acc
      else
        let r := walkEntry (path ++ "/" ++ name) e false ppy ppr acc
        if r.2 then r else walkList path rest ppy ppr r.1
termination_by structural l
end

/-- Result of `find_python_projects`: the returned project list, the value
emitted on the `search_finished` signal, and whether `search_error` was
emitted. -/
structure ScanResult where
  projects : List String
  finishedCount : Nat
  errorEmitted : Bool
deriving DecidableEq

/-- Embedding of `FinderModel.find_python_projects` on an existing root
directory (finder_model.py, lines 200-208): run the recursive walk with
`is_root_dir = True`; on normal completion emit `search_finished` with the
number of projects found; when an unexpected exception escapes, emit
`search_error` followed by `search_finished(0)`. -/
def findPythonProjects (rootPath : String) (root : FSEntry) : ScanResult :=
  let r := walkEntry rootPath root true false false []
  if r.2 then ⟨r.1, 0, true⟩ else ⟨r.1, r.1.length, false⟩

/-! ## Folder hasher (project_model.py, `ProjectModel.calculate_folder_hash`)

The source feeds a SHA-256 hasher with, per file (sorted by path), a
metadata string `"rel_path|size|mtime"` and the 32-byte SHA-256 digest of
the file's sampled content (whole content below 10 MiB, first and last
MiB otherwise).  SHA-256 itself is modelled abstractly: the folder digest
is the sequence of chunks fed to the running hasher, and a per-file
content digest stands for the sampled bytes it was computed from.  Two
equal chunk sequences produce equal SHA-256 digests; distinct chunk
sequences produce distinct digests barring an SHA-256 collision. -/

/-- Embedding of `fnmatch.fnmatch(name, pattern)` on POSIX for patterns
without character classes (every pattern in `IGNORED_FILE_EXTENSIONS` is
a plain string such as `".jpg"` with no `*`, `?` or `[`): the whole name
must match the whole pattern. -/
def globMatchF : Nat → List Char → List Char → Bool
  | _, [], [] => true
  | _, [], _ :: _ => false
  | f + 1, '*' :: ps, s =>
    globMatchF f ps s ||
      (match s with
       | [] => false
       | _ :: s' => globMatchF f ('*' :: ps) s')
  | f + 1, '?' :: ps, _ :: s => globMatchF f ps s
  | _, '?' :: _, [] => false
  | f + 1, p :: ps, c :: s => p == c && globMatchF f ps s
  | _, _ :: _, [] => false
  | 0, _ :: _, _ :: _ => false

def fnmatchLower (name pattern : String) : Bool :=
  globMatchF (pattern.length + name.length + 1) pattern.data (strLower name).data

/-- Ignored-format test of `calculate_folder_hash`:
`any(fnmatch.fnmatch(file.lower(), pattern) for pattern in
self.ignored_file_extensions)`. -/
def hashSkipsFile (name : String) : Bool :=
  IGNORED_FILE_EXTENSIONS.any (fun pattern => fnmatchLower name pattern)

def joinRel (relDir name : String) : String :=
  if relDir = "" then name else relDir ++ "/" ++ name

mutual
def collectEntry (relDir : String) (e : FSEntry) : List (String × FileData) :=
  match e with
  | .file name d =>
    if hashSkipsFile name then [] else [(joinRel relDir name, d)]
  | .dir name _ entries => collectList (joinRel relDir name) entries
termination_by structural e

def collectList (relDir : String) (l : FSList) : List (String × FileData) :=
  match l with
  | .nil => []
  | .cons e rest => collectEntry relDir e ++ collectList relDir rest
termination_by structural l
end

def insertPath (x : String × FileData) :
    List (String × FileData) → List (String × FileData)
  | [] => [x]
  | y :: ys => if strLe y.1 x.1 then y :: insertPath x ys else x :: y :: ys

/-- Sorting of `all_files` by path (`all_files.sort()`); the walk produces
paths sharing the project-root prefix, so sorting by project-relative path
is the same order. -/
def sortByPath (l : List (String × FileData)) : List (String × FileData) :=
  l.foldr insertPath []

inductive HashChunk where
  | metaOf (s : String)
  | contentOf (bytes : List Nat)
deriving DecidableEq

/-- Sampled content: whole content for files below 10 MiB, otherwise the
first MiB followed by the last MiB (`f.seek(-1024*1024, 2)`). -/
def sampleContent (size : Nat) (content : List Nat) : List Nat :=
  if size < 10 * 1024 * 1024 then content
  else content.take (1024 * 1024) ++ content.drop (content.length - 1024 * 1024)

/-- Embedding of `ProjectModel.calculate_folder_hash` on the directory
tree rooted at the project path, as the chunk sequence driven through the
running SHA-256 hasher. -/
def folderHashStream (entries : FSList) : List HashChunk :=
  let files := sortByPath (collectList "" entries)
  (files.map fun f =>
    [HashChunk.metaOf (f.1 ++ "|" ++ toString f.2.size ++ "|" ++ toString f.2.mtime),
     HashChunk.contentOf (sampleContent f.2.size f.2.content)]).flatten

/-- The project-relative paths of the files that contribute to the
digest. -/
def hashedFiles (entries : FSList) : List String :=
  (sortByPath (collectList "" entries)).map (fun f => f.1)

/-! ## Duplicate finder and grouper (finder_model.py, `find_duplicates`
and `group_duplicates`)

`ProjectModel.__eq__` compares paths and `__hash__` hashes the path, so
Python's `in` on project lists/sets and the similarity dictionaries are
modelled with path equality. -/

def pairsAfter : List Project → List (Project × Project)
  | [] => []
  | p :: rest => rest.map (fun q => (p, q)) ++ pairsAfter rest

/-- Embedding of `FinderModel.find_duplicates` (the `duplicates` result):
all pairs `(i, j)` with `i < j` in enumeration order whose similarity is
at least `SIMILARITY_THRESHOLD`. -/
def findDuplicates (projects : List Project) : List (Project × Project × ℚ) :=
  (pairsAfter projects).filterMap fun pq =>
    if SIMILARITY_THRESHOLD ≤ calculateSimilarity pq.1 pq.2 then
      some (pq.1, pq.2, calculateSimilarity pq.1 pq.2)
    else none

/-- Stable insertion for a descending sort by a rational key, matching
Python's stable `sorted(..., reverse=True)`. -/
def insertDescBy (key : α → ℚ) (x : α) : List α → List α
  | [] => [x]
  | y :: ys => if key x < key y then y :: insertDescBy key x ys else x :: y :: ys

def sortDescBy (key : α → ℚ) (l : List α) : List α := l.foldr (insertDescBy key) []

/-- A duplicate group: the member projects and the pairwise-similarity
dictionary (keyed by ordered path pairs, as the source keys the dict by
project objects which hash by path). -/
structure DupGroup where
  projects : List Project
  sims : List ((String × String) × ℚ)
deriving DecidableEq

def projMem (p : Project) (l : List Project) : Bool :=
  l.any fun q => q.path == p.path

def pathMem (s : String) (l : List String) : Bool := l.any fun t => t == s

def simsPut (k : String × String) (v : ℚ)
    (sims : List ((String × String) × ℚ)) : List ((String × String) × ℚ) :=
  if sims.any (fun e => e.1.1 == k.1 && e.1.2 == k.2) then
    sims.map fun e => if e.1.1 == k.1 && e.1.2 == k.2 then (k, v) else e
  else sims ++ [(k, v)]

/-- Add a project to a group if not already a member, recording it as
processed (the source appends to `group['projects']` and adds to
`processed_projects` together). -/
def addProj (p : Project) (g : DupGroup) (processed : List String) :
    DupGroup × List String :=
  if projMem p g.projects then (g, processed)
  else ({ g with projects := g.projects ++ [p] }, processed ++ [p.path])

def emptyGroup : DupGroup := ⟨[], []⟩

/-- The loop of `group_duplicates` over the sorted duplicate pairs.  A
pair both of whose members were already processed is skipped; otherwise
the first group containing either member is extended (`groups.set`), or a
fresh group is created and appended. -/
def groupLoop : List (Project × Project × ℚ) → List DupGroup → List String →
    List DupGroup
  | [], groups, _ => groups
  | (p1, p2, s) :: rest, groups, processed =>
    if pathMem p1.path processed && pathMem p2.path processed then
      groupLoop rest groups processed
    else
      match groups.findIdx? (fun g => projMem p1 g.projects || projMem p2 g.projects) with
      | some idx =>
        let r1 := addProj p1 (groups.getD idx emptyGroup) processed
        let r2 := addProj p2 r1.1 r1.2
        let g := { r2.1 with
          sims := simsPut (p2.path, p1.path) s (simsPut (p1.path, p2.path) s r2.1.sims) }
        groupLoop rest (groups.set idx g) r2.2
      | none =>
        let r1 := addProj p1 emptyGroup processed
        let r2 := addProj p2 r1.1 r1.2
        let g := { r2.1 with
          sims := simsPut (p2.path, p1.path) s (simsPut (p1.path, p2.path) s r2.1.sims) }
        groupLoop rest (groups ++ [g]) r2.2

/-- Embedding of `FinderModel.group_duplicates`: compute the duplicate
pairs, return `[]` when there are none, otherwise process the pairs in
descending similarity order and finally sort groups by descending member
count. -/
def groupDuplicates (projects : List Project) : List DupGroup :=
  let dups := findDuplicates projects
  if dups = [] then []
  else
    sortDescBy (fun g => ((g.projects.length : ℚ)))
      (groupLoop (sortDescBy (fun d => d.2.2) dups) [] [])

/-! ## JSON persistence (finder_model.py `save_to_json`/`load_from_json`,
project_model.py `to_dict`/`from_dict`)

A parsed JSON project record is modelled field by field; `none` encodes
an absent key.  `last_modified` is doubly optional: the outer layer is
key presence (`to_dict` always writes the key), the inner layer is
null-ness (`to_dict` writes `None` for a falsy timestamp).  The JSON
text layer (`json.dump`/`json.load` on a dict of strings, integers and
string lists) is faithful and is modelled as the identity on records. -/

structure RawRecord where
  path : Option String
  name : Option String
  file_count : Option Int
  size : Option Int
  last_modified : Option (Option Nat)
  python_files : Option (List String)
  project_files : Option (List String)
  real_size : Option Int
  real_file_count : Option Int
  folder_hash : Option String
deriving DecidableEq

/-- Embedding of `ProjectModel.to_dict`: the seven base keys are always
written; `real_size`, `real_file_count` and `folder_hash` only when
computed.  The `last_modified` entry is
`self.last_modified.isoformat() if self.last_modified else None`: a falsy
value serialises to null, a `datetime` to its isoformat string — and a
truthy raw float timestamp raises `AttributeError` (floats have no
`isoformat`), modelled by the `none` result. -/
def toDict (p : Project) : Option RawRecord :=
  if lmTruthy p.last_modified then
    match p.last_modified with
    | .dateTime t =>
      some
        { path := some p.path
          name := some p.name
          file_count := some p.file_count
          size := some p.size
          last_modified := some (some t)
          python_files := some p.python_files
          project_files := some p.project_files
          real_size := p.real_size
          real_file_count := p.real_file_count
          folder_hash := p.folder_hash }
    | .stamp _ => none
  else
    some
      { path := some p.path
        name := some p.name
        file_count := some p.file_count
        size := some p.size
        last_modified := some none
        python_files := some p.python_files
        project_files := some p.project_files
        real_size := p.real_size
        real_file_count := p.real_file_count
        folder_hash := p.folder_hash }

/-- Embedding of `ProjectModel.from_dict`, parameterised by the filesystem
seen at import time: `stat path` is `some t` when `os.stat(path)` succeeds
with mtime `t`, `none` when it raises.  `data["path"]` raises `KeyError`
when the key is absent (`none` result); every other key is read with a
default.  The constructor `cls(data["path"])` runs `os.stat` and leaves
`last_modified` holding the raw numeric timestamp (project_model.py,
lines 41-45); `from_dict` then overwrites it only when the record's
`last_modified` entry is present and truthy, and overwrites `size`
unconditionally with `data.get("size", 0)`. -/
def fromDict (stat : String → Option Nat) (r : RawRecord) : Option Project :=
  match r.path with
  | none => none
  | some path =>
    some
      { path := path
        name := r.name.getD (basename path)
        file_count := r.file_count.getD 0
        size := r.size.getD 0
        last_modified :=
          match r.last_modified with
          | some (some t) => .dateTime t
          | _ =>
            match stat path with
            | some t => .stamp t
            | none => .stamp 0
        python_files := r.python_files.getD []
        project_files := r.project_files.getD []
        real_size := r.real_size
        real_file_count := r.real_file_count
        folder_hash := r.folder_hash }

/-- The list comprehension `[project.to_dict() for project in
self.projects]` of `save_to_json` (finder_model.py, line 221): a record
per project, or `none` when some `to_dict` call raises. -/
def toDicts : List Project → Option (List RawRecord)
  | [] => some []
  | p :: rest =>
    match toDict p with
    | none => none
    | some r =>
      match toDicts rest with
      | none => none
      | some rs => some (r :: rs)

/-- Embedding of `FinderModel.save_to_json` (the record list written under
the `python_projects` key).  The comprehension runs BEFORE the
`try`/`except` of `save_to_json`, so an `AttributeError` from `to_dict`
propagates to the caller uncaught (`none`: no file is written and no
boolean is returned). -/
def saveToJson (projects : List Project) : Option (List RawRecord) :=
  toDicts projects

/-- The reconstruction loop of `load_from_json`: `self.projects` has been
reset to `[]` and is extended record by record; a record that fails to
reconstruct aborts the loop, leaving the list at the prefix parsed so far
(`False` returned). -/
def loadRecords (stat : String → Option Nat) :
    List RawRecord → List Project → List Project × Bool
  | [], acc => (acc, true)
  | r :: rest, acc =>
    match fromDict stat r with
    | none => (acc, false)
    | some p => loadRecords stat rest (acc ++ [p])

/-- Embedding of `FinderModel.load_from_json`.  The input is `none` when
opening or parsing the file raises (unreadable file or malformed JSON) —
this happens before `self.projects` is touched — and `some records`
when parsing succeeded.  The result is the new in-memory project list and
the returned boolean; every `false` return is accompanied by a
`search_error` emission. -/
def loadFromJson (stat : String → Option Nat) (projects : List Project)
    (input : Option (List RawRecord)) : List Project × Bool :=
  match input with
  | none => (projects, false)
  | some records => loadRecords stat records []

/-- A `last_modified` state on which `to_dict` returns instead of raising:
falsy, or a `datetime`. -/
def serialisableLM : LastModified → Bool
  | .stamp 0 => true
  | .stamp _ => false
  | .dateTime _ => true

/-- The `datetime` content of `last_modified`, if any. -/
def lmDateValue : LastModified → Option Nat
  | .dateTime t => some t
  | .stamp _ => none

/-- The project attributes the round-trip reproduces exactly: path, name,
file count, size, the two file lists, the three optional fields, and the
`datetime` content of `last_modified` (`last_modified` itself is re-seeded
from `os.stat` by the importing constructor when the stored value was
null). -/
def persistedFields (p : Project) :
    String × String × Int × Int × List String × List String ×
      Option Int × Option Int × Option String × Option Nat :=
  (p.path, p.name, p.file_count, p.size, p.python_files, p.project_files,
   p.real_size, p.real_file_count, p.folder_hash, lmDateValue p.last_modified)

/-- A stat function for an import environment in which none of the stored
paths exist. -/
def statNone : String → Option Nat := fun _ => none

/-! ## Concrete inputs used by the claim theorems -/

def sampleData : FileData := ⟨1, 1, [0]⟩

/-- Tree for claim C6: `R/proj` contains `main.py` directly and a
subdirectory `sub` containing `deep.py`. -/
def treeLeaf : FSEntry :=
  .dir "R" false (.ofList [
    .dir "proj" false (.ofList [
      .file "main.py" sampleData,
      .dir "sub" false (.ofList [.file "deep.py" sampleData])])])

/-- Tree for claim C7: one project directory is found, then an unexpected
runtime error is raised entering `bad`; the directory `p2` (which also
holds a Python file) is never reached. -/
def treeBoom : FSEntry :=
  .dir "R" false (.ofList [
    .dir "p1" false (.ofList [.file "a.py" sampleData]),
    .dir "bad" true .nil,
    .dir "p2" false (.ofList [.file "b.py" sampleData])])

/-- Tree for claim C10: the scan root itself directly contains `top.py`,
and a subdirectory `proj` contains `main.py`. -/
def treeRootMatch : FSEntry :=
  .dir "R" false (.ofList [
    .file "top.py" sampleData,
    .dir "proj" false (.ofList [.file "main.py" sampleData])])

/-- Hash tree for claim C1: a project with `main.py` and `photo.jpg`. -/
def hashTree1 : FSList :=
  .ofList [.file "main.py" ⟨3, 100, [10, 11, 12]⟩,
           .file "photo.jpg" ⟨3, 200, [1, 2, 3]⟩]

/-- `hashTree1` after appending one byte to `photo.jpg` (its size grows
from 3 to 4). -/
def hashTree2 : FSList :=
  .ofList [.file "main.py" ⟨3, 100, [10, 11, 12]⟩,
           .file "photo.jpg" ⟨4, 200, [1, 2, 3, 9]⟩]

/-- Projects for claim C2: identical single-file lists, names `"wxyz"` and
`"yxzw"` on which the sequence-matcher ratio is asymmetric. -/
def projQ1 : Project := ⟨"p1", "wxyz", 0, 0, .stamp 0, ["a.py"], [], none, none, none⟩

def projQ2 : Project := ⟨"p2", "yxzw", 0, 0, .stamp 0, ["a.py"], [], none, none, none⟩

/-- Projects for claim C3: both real sizes computed, one equal to zero. -/
def projR1 : Project := ⟨"r1", "x", 0, 0, .stamp 0, ["a.py"], [], some 0, none, none⟩

def projR2 : Project := ⟨"r2", "y", 0, 0, .stamp 0, ["a.py"], [], some 5, none, none⟩

/-- Projects for claim C4's counterexample: equal non-null folder hashes
but an empty source-file list on one side. -/
def projS1 : Project := ⟨"s1", "x", 0, 0, .stamp 0, [], [], none, none, some "h"⟩

def projS2 : Project := ⟨"s2", "y", 0, 0, .stamp 0, ["a.py"], [], none, none, some "h"⟩

/-- Projects for claim C4's amended theorem: equal non-null folder hashes,
different names, file lists and sizes. -/
def projS3 : Project := ⟨"s3", "x", 0, 0, .stamp 0, ["z.py"], [], some 1, none, some "h"⟩

def projS4 : Project :=
  ⟨"s4", "completely different", 0, 0, .stamp 0, ["a.py"], [], some 999, none, some "h"⟩

/-- Projects for claim C5's chained-group scenario:
`similarity(A,B) = 9/10`, `similarity(B,C) = 3/4`,
`similarity(A,C) = 27/40 < 7/10`. -/
def projA : Project := ⟨"A", "x", 0, 0, .stamp 0, ["a.py"], [], some 8, none, none⟩

def projB : Project := ⟨"B", "x", 0, 0, .stamp 0, ["a.py"], [], some 4, none, none⟩

def projC : Project := ⟨"C", "x", 0, 0, .stamp 0, ["a.py", "b.py"], [], some 3, none, none⟩

/-- Two distinct project records sharing one path (e.g. the same project
imported twice from JSON); their similarity is `7/10`, at the threshold. -/
def projDupA : Project := ⟨"P", "n", 0, 0, .stamp 0, ["a.py"], [], none, none, none⟩

def projDupB : Project := ⟨"P", "m", 0, 0, .stamp 0, ["a.py"], [], none, none, none⟩

/-- Prior in-memory project for claim C8. -/
def projPrior : Project := ⟨"old", "old", 0, 0, .stamp 0, [], [], none, none, none⟩

/-- A record that reconstructs (claim C8). -/
def recGood : RawRecord :=
  ⟨some "new", some "new", some 1, some 2, some none, some ["n.py"], some [],
   none, none, none⟩

/-- A record whose reconstruction raises `KeyError` (`data["path"]` with
the key absent). -/
def recBad : RawRecord :=
  ⟨none, some "broken", none, none, none, none, none, none, none, none⟩

/-- The project `recGood` reconstructs to under `statNone` (the stored
`last_modified` is null and the path does not exist, so the constructor
leaves the falsy timestamp). -/
def projNew : Project :=
  ⟨"new", "new", 1, 2, .stamp 0, ["n.py"], [], none, none, none⟩

/-- A classified project that kept the raw float `st_mtime` from
`__init__`: its only Python-extension file is `.pyw`, so
`_analyze_project` collected no `.py` file and never replaced the
constructor's numeric timestamp with a `datetime` — on this project
`to_dict` raises `AttributeError`. -/
def projFloat : Project :=
  ⟨"f", "f", 0, 7, .stamp 5, ["a.pyw"], [], none, none, none⟩

/-! ## Matcher validity and ratio bounds -/

theorem flmRow_valid (alo ahi i blo bhi : Nat) (js : List Nat)
    (j2len : Nat → Nat) (hi1 : alo ≤ i) (hi2 : i < ahi)
    (hold : J2Inv alo blo bhi i j2len) :
    ∀ (newj2len : Nat → Nat) (best : Nat × Nat × Nat),
      J2Inv alo blo bhi (i + 1) newj2len →
      BestValid alo ahi blo bhi best →
      J2Inv alo blo bhi (i + 1) (flmRow i blo bhi js j2len newj2len best).1 ∧
      BestValid alo ahi blo bhi (flmRow i blo bhi js j2len newj2len best).2 := by
  induction js with
  | nil => intro newj2len best hnew hbest; exact ⟨hnew, hbest⟩
  | cons j rest ih =>
    intro newj2len best hnew hbest
    by_cases h1 : j < blo
    · rw [flmRow, if_pos h1]; exact ih newj2len best hnew hbest
    · by_cases h2 : bhi ≤ j
      · rw [flmRow, if_neg h1, if_pos h2]; exact ⟨hnew, hbest⟩
      · rw [flmRow, if_neg h1, if_neg h2]
        have hblo : blo ≤ j := Nat.le_of_not_lt h1
        have hjb : j < bhi := Nat.lt_of_not_le h2
        have hk1 : (if j = 0 then 0 else j2len (j - 1)) + 1 + blo ≤ j + 1 := by
          split
          · omega
          · by_cases hz : j2len (j - 1) = 0
            · rw [hz]; omega
            · have := hold _ hz; omega
        have hk2 : (if j = 0 then 0 else j2len (j - 1)) + 1 + alo ≤ i + 1 := by
          split
          · omega
          · by_cases hz : j2len (j - 1) = 0
            · rw [hz]; omega
            · have := hold _ hz; omega
        refine ih _ _ ?_ ?_
        · intro j' hj'
          dsimp only at hj' ⊢
          by_cases hjj : j' = j
          · rw [if_pos hjj] at hj' ⊢
            subst hjj
            exact ⟨hblo, hjb, by omega, by omega⟩
          · rw [if_neg hjj] at hj' ⊢
            exact hnew j' hj'
        · by_cases hb : best.2.2 < (if j = 0 then 0 else j2len (j - 1)) + 1
          · rw [if_pos hb]
            refine ⟨?_, ?_, ?_, ?_⟩ <;> dsimp only <;> omega
          · rw [if_neg hb]; exact hbest

theorem flmScan_valid [DecidableEq α] [Inhabited α] (a : List α)
    (b2j : α → List Nat) (alo ahi blo bhi : Nat) :
    ∀ (n i : Nat) (j2len : Nat → Nat) (best : Nat × Nat × Nat),
      alo ≤ i → i + n = ahi → J2Inv alo blo bhi i j2len →
      BestValid alo ahi blo bhi best →
      BestValid alo ahi blo bhi (flmScan a b2j blo bhi i n j2len best) := by
  intro n
  induction n with
  | zero => intro i j2len best _ _ _ hb; exact hb
  | succ n ih =>
    intro i j2len best hi hin hj hb
    rw [flmScan]
    have hrow := flmRow_valid alo ahi i blo bhi (b2j (a.getD i default)) j2len hi
      (by omega) hj (fun _ => 0) best (by intro j hj0; simp at hj0) hb
    exact ih (i + 1) _ _ (by omega) (by omega) hrow.1 hrow.2

theorem extendLower_valid [DecidableEq α] [Inhabited α] (a b : List α)
    (alo ahi blo bhi : Nat) :
    ∀ (fuel bi bj k : Nat), BestValid alo ahi blo bhi (bi, bj, k) →
      BestValid alo ahi blo bhi (extendLower a b alo blo fuel bi bj k) := by
  intro fuel
  induction fuel with
  | zero => intro bi bj k h; exact h
  | succ fuel ih =>
    intro bi bj k h
    rw [extendLower]
    split
    · rename_i hcond
      refine ih _ _ _ ?_
      dsimp only [BestValid] at h ⊢
      omega
    · exact h

theorem extendUpper_valid [DecidableEq α] [Inhabited α] (a b : List α)
    (alo ahi blo bhi : Nat) :
    ∀ (fuel bi bj k : Nat), BestValid alo ahi blo bhi (bi, bj, k) →
      BestValid alo ahi blo bhi (extendUpper a b ahi bhi fuel bi bj k) := by
  intro fuel
  induction fuel with
  | zero => intro bi bj k h; exact h
  | succ fuel ih =>
    intro bi bj k h
    rw [extendUpper]
    split
    · rename_i hcond
      refine ih _ _ _ ?_
      dsimp only [BestValid] at h ⊢
      omega
    · exact h

theorem findLongestMatch_valid [DecidableEq α] [Inhabited α] (a b : List α)
    (b2j : α → List Nat) (alo ahi blo bhi : Nat)
    (ha : alo ≤ ahi) (hb : blo ≤ bhi) :
    BestValid alo ahi blo bhi (findLongestMatch a b b2j alo ahi blo bhi) := by
  rw [findLongestMatch]
  have h0 : BestValid alo ahi blo bhi (alo, blo, 0) := by
    dsimp only [BestValid]
    omega
  have hs := flmScan_valid a b2j alo ahi blo bhi (ahi - alo) alo (fun _ => 0)
    (alo, blo, 0) (Nat.le_refl _) (by omega) (by intro j hj0; simp at hj0) h0
  set s := flmScan a b2j blo bhi alo (ahi - alo) (fun _ => 0) (alo, blo, 0) with hsdef
  have hl := extendLower_valid a b alo ahi blo bhi s.1 s.1 s.2.1 s.2.2 hs
  set l := extendLower a b alo blo s.1 s.1 s.2.1 s.2.2 with hldef
  exact extendUpper_valid a b alo ahi blo bhi ahi l.1 l.2.1 l.2.2 hl

theorem matchingTotalF_le [DecidableEq α] [Inhabited α] (a b : List α)
    (b2j : α → List Nat) :
    ∀ (fuel alo ahi blo bhi : Nat), alo ≤ ahi → blo ≤ bhi →
      matchingTotalF a b b2j fuel alo ahi blo bhi + alo ≤ ahi ∧
      matchingTotalF a b b2j fuel alo ahi blo bhi + blo ≤ bhi := by
  intro fuel
  induction fuel with
  | zero => intro alo ahi blo bhi h1 h2; simp only [matchingTotalF]; omega
  | succ fuel ih =>
    intro alo ahi blo bhi ha hb
    obtain ⟨h1, h2, h3, h4⟩ := findLongestMatch_valid a b b2j alo ahi blo bhi ha hb
    simp only [matchingTotalF]
    by_cases hk : (findLongestMatch a b b2j alo ahi blo bhi).2.2 = 0
    · rw [if_pos hk]; omega
    · rw [if_neg hk]
      have hL : ∀ x, (if alo < (findLongestMatch a b b2j alo ahi blo bhi).1 ∧
          blo < (findLongestMatch a b b2j alo ahi blo bhi).2.1 then x else 0) = x ∨
          (if alo < (findLongestMatch a b b2j alo ahi blo bhi).1 ∧
          blo < (findLongestMatch a b b2j alo ahi blo bhi).2.1 then x else 0) = 0 := by
        intro x; split <;> simp
      rcases hL (matchingTotalF a b b2j fuel alo (findLongestMatch a b b2j alo ahi blo bhi).1
          blo (findLongestMatch a b b2j alo ahi blo bhi).2.1) with hL' | hL'
      all_goals rw [hL']
      all_goals {
        by_cases hg2 : (findLongestMatch a b b2j alo ahi blo bhi).1 +
            (findLongestMatch a b b2j alo ahi blo bhi).2.2 < ahi ∧
            (findLongestMatch a b b2j alo ahi blo bhi).2.1 +
            (findLongestMatch a b b2j alo ahi blo bhi).2.2 < bhi
        · rw [if_pos hg2]
          have hR := ih ((findLongestMatch a b b2j alo ahi blo bhi).1 +
              (findLongestMatch a b b2j alo ahi blo bhi).2.2) ahi
              ((findLongestMatch a b b2j alo ahi blo bhi).2.1 +
              (findLongestMatch a b b2j alo ahi blo bhi).2.2) bhi
              (by omega) (by omega)
          have hLb := ih alo (findLongestMatch a b b2j alo ahi blo bhi).1 blo
            (findLongestMatch a b b2j alo ahi blo bhi).2.1 (by omega) (by omega)
          omega
        · rw [if_neg hg2]
          have hLb := ih alo (findLongestMatch a b b2j alo ahi blo bhi).1 blo
            (findLongestMatch a b b2j alo ahi blo bhi).2.1 (by omega) (by omega)
          omega }

theorem matchingTotal_le_left [DecidableEq α] [Inhabited α] (a b : List α) :
    matchingTotal a b ≤ a.length := by
  have := matchingTotalF_le a b (b2jOf b) (a.length + b.length + 1) 0 a.length 0
    b.length (Nat.zero_le _) (Nat.zero_le _)
  rw [matchingTotal]; omega

theorem matchingTotal_le_right [DecidableEq α] [Inhabited α] (a b : List α) :
    matchingTotal a b ≤ b.length := by
  have := matchingTotalF_le a b (b2jOf b) (a.length + b.length + 1) 0 a.length 0
    b.length (Nat.zero_le _) (Nat.zero_le _)
  rw [matchingTotal]; omega

theorem ratioQ_nonneg [DecidableEq α] [Inhabited α] (a b : List α) :
    0 ≤ ratioQ a b := by
  rw [ratioQ]
  split
  · norm_num
  · positivity

theorem ratioQ_le_one [DecidableEq α] [Inhabited α] (a b : List α) :
    ratioQ a b ≤ 1 := by
  rw [ratioQ]
  split
  · exact le_refl 1
  · rename_i h
    have h1 := matchingTotal_le_left a b
    have h2 := matchingTotal_le_right a b
    have hpos : (0 : ℚ) < (a.length : ℚ) + (b.length : ℚ) := by
      have : 0 < a.length + b.length := Nat.pos_of_ne_zero h
      exact_mod_cast this
    rw [div_le_one hpos]
    have : 2 * matchingTotal a b ≤ a.length + b.length := by omega
    exact_mod_cast this

theorem sizeSimilarity_nonneg (p1 p2 : Project) : 0 ≤ sizeSimilarity p1 p2 := by
  rw [sizeSimilarity]
  cases p1.real_size with
  | none => norm_num
  | some s1 =>
    cases p2.real_size with
    | none => norm_num
    | some s2 =>
      dsimp only
      split
      · rename_i hpos
        have hmin : (0 : ℚ) ≤ ((min s1 s2 : Int) : ℚ) := by
          have : (0 : Int) ≤ min s1 s2 := le_min (le_of_lt hpos.1) (le_of_lt hpos.2)
          exact_mod_cast this
        have hmax : (0 : ℚ) ≤ ((max s1 s2 : Int) : ℚ) := by
          have : (0 : Int) ≤ max s1 s2 := le_trans (le_of_lt hpos.1) (le_max_left _ _)
          exact_mod_cast this
        exact div_nonneg hmin hmax
      · exact le_refl 0

theorem sizeSimilarity_le_one (p1 p2 : Project) : sizeSimilarity p1 p2 ≤ 1 := by
  rw [sizeSimilarity]
  cases p1.real_size with
  | none => norm_num
  | some s1 =>
    cases p2.real_size with
    | none => norm_num
    | some s2 =>
      dsimp only
      split
      · rename_i hpos
        have hmaxpos : (0 : ℚ) < ((max s1 s2 : Int) : ℚ) := by
          have : (0 : Int) < max s1 s2 := lt_of_lt_of_le hpos.1 (le_max_left _ _)
          exact_mod_cast this
        rw [div_le_one hmaxpos]
        have : (min s1 s2 : Int) ≤ max s1 s2 := min_le_max
        exact_mod_cast this
      · norm_num

/-! ## Branch equations for `_calculate_similarity`, used both to settle
the weighting claims and to evaluate concrete instances. -/

theorem calcSim_of_empty (p1 p2 : Project)
    (h : p1.python_files = [] ∨ p2.python_files = []) :
    calculateSimilarity p1 p2 = 0 := by
  rw [calculateSimilarity, if_pos h]

theorem calcSim_of_hash (p1 p2 : Project)
    (h : ¬(p1.python_files = [] ∨ p2.python_files = []))
    (hh : hashTruthy p1.folder_hash ∧ hashTruthy p2.folder_hash ∧
      p1.folder_hash = p2.folder_hash) :
    calculateSimilarity p1 p2 = 1 := by
  rw [calculateSimilarity, if_neg h, if_pos hh]

theorem calcSim_of_sizes (p1 p2 : Project)
    (h : ¬(p1.python_files = [] ∨ p2.python_files = []))
    (hh : ¬(hashTruthy p1.folder_hash ∧ hashTruthy p2.folder_hash ∧
      p1.folder_hash = p2.folder_hash))
    (hs : p1.real_size ≠ none ∧ p2.real_size ≠ none) :
    calculateSimilarity p1 p2 = fileSimilarity p1 p2 * (6 / 10) +
      nameSimilarity p1 p2 * (2 / 10) + sizeSimilarity p1 p2 * (2 / 10) := by
  rw [calculateSimilarity, if_neg h, if_neg hh]
  simp only [if_pos hs]

theorem calcSim_of_noSizes (p1 p2 : Project)
    (h : ¬(p1.python_files = [] ∨ p2.python_files = []))
    (hh : ¬(hashTruthy p1.folder_hash ∧ hashTruthy p2.folder_hash ∧
      p1.folder_hash = p2.folder_hash))
    (hs : ¬(p1.real_size ≠ none ∧ p2.real_size ≠ none)) :
    calculateSimilarity p1 p2 = fileSimilarity p1 p2 * (7 / 10) +
      nameSimilarity p1 p2 * (3 / 10) := by
  rw [calculateSimilarity, if_neg h, if_neg hh]
  simp only [if_neg hs]

theorem ratioQ_eval [DecidableEq α] [Inhabited α] (a b : List α) (m l1 l2 : Nat)
    (hm : matchingTotal a b = m) (h1 : a.length = l1) (h2 : b.length = l2)
    (hne : l1 + l2 ≠ 0) :
    ratioQ a b = 2 * (m : ℚ) / ((l1 : ℚ) + (l2 : ℚ)) := by
  subst hm h1 h2
  rw [ratioQ, if_neg hne]

theorem fileSimilarity_nonneg (p1 p2 : Project) : 0 ≤ fileSimilarity p1 p2 :=
  ratioQ_nonneg _ _

theorem fileSimilarity_le_one (p1 p2 : Project) : fileSimilarity p1 p2 ≤ 1 :=
  ratioQ_le_one _ _

theorem nameSimilarity_nonneg (p1 p2 : Project) : 0 ≤ nameSimilarity p1 p2 :=
  ratioQ_nonneg _ _

theorem nameSimilarity_le_one (p1 p2 : Project) : nameSimilarity p1 p2 ≤ 1 :=
  ratioQ_le_one _ _

theorem calcSim_nonneg (p1 p2 : Project) : 0 ≤ calculateSimilarity p1 p2 := by
  rw [calculateSimilarity]
  split
  · exact le_refl 0
  · split
    · norm_num
    · have hf := fileSimilarity_nonneg p1 p2
      have hn := nameSimilarity_nonneg p1 p2
      have hs := sizeSimilarity_nonneg p1 p2
      split <;> linarith

theorem calcSim_le_one (p1 p2 : Project) : calculateSimilarity p1 p2 ≤ 1 := by
  rw [calculateSimilarity]
  split
  · norm_num
  · split
    · exact le_refl 1
    · have hf1 := fileSimilarity_le_one p1 p2
      have hf0 := fileSimilarity_nonneg p1 p2
      have hn1 := nameSimilarity_le_one p1 p2
      have hn0 := nameSimilarity_nonneg p1 p2
      have hs1 := sizeSimilarity_le_one p1 p2
      have hs0 := sizeSimilarity_nonneg p1 p2
      split <;> linarith

/-! ## Scanner theorems -/

mutual
theorem walkEntry_flags (path : String) (e : FSEntry) (isRoot ppy ppr : Bool)
    (acc : List String) (h : (ppy || ppr) = true) :
    (walkEntry path e isRoot ppy ppr acc).1 = acc := by
  cases e with
  | file n d => rfl
  | dir n boom entries =>
    rw [walkEntry]
    by_cases hb : boom = true
    · simp [hb]
    · simp only [Bool.not_eq_true] at hb
      subst hb
      simp only [if_neg (by simp : ¬ (false = true))]
      by_cases hl : 255 < path.length
      · simp [hl]
      · rw [if_neg hl]
        rw [h]
        simp only [Bool.not_true, Bool.and_false, Bool.false_and]
        rw [if_neg (by simp)]
        have h2 : ((ppy || isPythonProject entries) ||
            (ppr || isProjectRoot entries)) = true := by
          cases ppy <;> cases ppr <;> simp_all
        exact walkList_flags path entries (ppy || isPythonProject entries)
          (ppr || isProjectRoot entries) acc h2
termination_by structural e

theorem walkList_flags (path : String) (l : FSList) (ppy ppr : Bool)
    (acc : List String) (h : (ppy || ppr) = true) :
    (walkList path l ppy ppr acc).1 = acc := by
  cases l with
  | nil => rfl
  | cons e rest =>
    cases e with
    | file n d =>
      rw [walkList]
      exact walkList_flags path rest ppy ppr acc h
    | dir n boom entries =>
      rw [walkList]
      by_cases hig : ignoredDirMem n = true
      · rw [if_pos hig]
        exact walkList_flags path rest ppy ppr acc h
      · rw [if_neg hig]
        have he := walkEntry_flags (path ++ "/" ++ n) (.dir n boom entries)
          false ppy ppr acc h
        by_cases hr : (walkEntry (path ++ "/" ++ n) (.dir n boom entries)
            false ppy ppr acc).2 = true
        · simp only [hr, if_pos rfl]
          exact he
        · simp only [Bool.not_eq_true] at hr
          simp only [hr]
          rw [if_neg (by simp)]
          rw [walkList_flags path rest ppy ppr _ h]
          exact he
termination_by structural l
end

/-- Claim C6 (confirmed): on the tree `R/proj/{main.py, sub/deep.py}`, the
scan reports exactly the single project `R/proj` — the classified project
directory is a leaf of the scan, so no project is reported at
`R/proj/sub` even though it contains a Python file — and the finished
notification carries the count 1. -/
theorem c6_classified_project_is_leaf :
    findPythonProjects "R" treeLeaf =
      ⟨["R/proj"], 1, false⟩ ∧
    "R/proj/sub" ∉ (findPythonProjects "R" treeLeaf).projects := by
  decide

/-- Claim C7 (code_bug): when an unexpected runtime error is raised during
traversal (here, on entering `R/bad` after the project `R/p1` was
recorded), the error is caught at the top level, `search_error` is
emitted, traversal stops (`R/p2` is never reported although it holds a
Python file) — but the `search_finished` notification carries 0, not the
count 1 of projects accumulated before the error, contradicting the
claim. -/
theorem c7_error_emits_zero_count :
    findPythonProjects "R" treeBoom = ⟨["R/p1"], 0, true⟩ ∧
    (findPythonProjects "R" treeBoom).finishedCount ≠
      (findPythonProjects "R" treeBoom).projects.length := by
  decide

/-- Claim C10 (confirmed): if the scan root itself satisfies the source
classifier or the root-marker classifier, its own classification result is
OR-ed into the ancestor flags of every child, so no directory in the whole
tree is ever classified and the scan returns the empty project list. -/
theorem c10_matching_root_yields_empty_scan (rootPath name : String)
    (boom : Bool) (entries : FSList)
    (h : (isPythonProject entries || isProjectRoot entries) = true) :
    (findPythonProjects rootPath (.dir name boom entries)).projects = [] := by
  rw [findPythonProjects]
  have hw : (walkEntry rootPath (.dir name boom entries) true false false []).1 = [] := by
    rw [walkEntry]
    by_cases hb : boom = true
    · simp [hb]
    · simp only [Bool.not_eq_true] at hb
      subst hb
      rw [if_neg (by simp)]
      by_cases hl : 255 < rootPath.length
      · simp [hl]
      · rw [if_neg hl]
        simp only [Bool.not_true, Bool.false_and]
        rw [if_neg (by simp)]
        exact walkList_flags rootPath entries (false || isPythonProject entries)
          (false || isProjectRoot entries) [] (by simpa using h)
  cases hr : (walkEntry rootPath (.dir name boom entries) true false false []).2 <;>
    simp [hr, hw]

/-- Witness for claim C10 at the concrete tree `treeRootMatch`. -/
theorem c10_matching_root_yields_empty_scan_witness :
    (findPythonProjects "R" treeRootMatch).projects = [] := by
  have h : treeRootMatch = FSEntry.dir "R" false
      (.ofList [.file "top.py" sampleData,
        .dir "proj" false (.ofList [.file "main.py" sampleData])]) := rfl
  rw [h]
  exact c10_matching_root_yields_empty_scan "R" "R" false _ (by decide)

/-! ## Folder-hash theorem -/

/-- Claim C1 (code_bug): `calculate_folder_hash` tests ignored formats
with `fnmatch.fnmatch(file.lower(), pattern)` where every pattern is a
bare extension such as `".jpg"`; such a pattern only matches a file whose
whole name is `".jpg"`, so `photo.jpg` is NOT excluded from the digest
(contradicting the claim, the spec and the function's own comment), and
appending one byte to `photo.jpg` changes the data fed to the hasher and
hence the digest. -/
theorem c1_ignored_extension_not_excluded :
    hashSkipsFile "photo.jpg" = false ∧
    hashSkipsFile ".jpg" = true ∧
    "photo.jpg" ∈ hashedFiles hashTree1 ∧
    folderHashStream hashTree1 ≠ folderHashStream hashTree2 := by
  decide

/-! ## Persistence theorems -/

theorem toDict_fromDict_fields (stat : String → Option Nat) (p : Project)
    (h : serialisableLM p.last_modified = true) :
    ∃ r p', toDict p = some r ∧ fromDict stat r = some p' ∧
      persistedFields p' = persistedFields p := by
  rcases p with ⟨pa, pn, pf, ps, plm, ppy, ppr, prs, prf, pfh⟩
  cases plm with
  | stamp t =>
    cases t with
    | zero =>
      refine ⟨_, _, rfl, rfl, ?_⟩
      cases hstat : stat pa <;>
        simp [persistedFields, fromDict, lmDateValue, hstat]
    | succ t => simp [serialisableLM] at h
  | dateTime t => exact ⟨_, _, rfl, rfl, rfl⟩

theorem loadRecords_roundtrip (stat : String → Option Nat) :
    ∀ l : List Project, (∀ p ∈ l, serialisableLM p.last_modified = true) →
    ∃ rs, toDicts l = some rs ∧ ∀ acc, ∃ ps,
      loadRecords stat rs acc = (acc ++ ps, true) ∧
      ps.map persistedFields = l.map persistedFields := by
  intro l
  induction l with
  | nil =>
    intro _
    exact ⟨[], rfl, fun acc => ⟨[], by simp [loadRecords], rfl⟩⟩
  | cons p rest ih =>
    intro h
    obtain ⟨r, p', hr, hp', hfields⟩ :=
      toDict_fromDict_fields stat p (h p (by simp))
    obtain ⟨rs, hrs, hload⟩ := ih (fun q hq => h q (by simp [hq]))
    refine ⟨r :: rs, ?_, ?_⟩
    · rw [toDicts, hr]
      dsimp only
      rw [hrs]
    · intro acc
      obtain ⟨ps, hps, hmap⟩ := hload (acc ++ [p'])
      refine ⟨p' :: ps, ?_, ?_⟩
      · rw [loadRecords, hp']
        dsimp only
        rw [hps]
        simp
      · simp [hmap, hfields]

/-- Claim C9, amended (corrected): for every project list in which each
project's `last_modified` is serialisable (falsy, or a `datetime` — every
state except the raw truthy float `st_mtime` that `__init__` leaves on a
project whose analysis collected no `.py` file), the export succeeds and
re-importing reproduces an ordered list with the same paths, names, file
counts, sizes, python-file and project-file lists, the same
`real_size`/`real_file_count`/`folder_hash` values wherever present
(absent optional keys leave the attributes unset), and the same
`datetime` timestamps where they existed, and the import reports success.
The quantified `stat` covers every import-time filesystem, since the
importing constructor re-runs `os.stat` on each stored path.  On a list
containing a raw-float-timestamp project the export itself raises (see
the counterexample). -/
theorem c9_export_import_roundtrip (stat : String → Option Nat)
    (st l : List Project)
    (h : ∀ p ∈ l, serialisableLM p.last_modified = true) :
    ∃ rs, saveToJson l = some rs ∧
      ((loadFromJson stat st (some rs)).1).map persistedFields =
        l.map persistedFields ∧
      (loadFromJson stat st (some rs)).2 = true := by
  obtain ⟨rs, hrs, hload⟩ := loadRecords_roundtrip stat l h
  obtain ⟨ps, hps, hmap⟩ := hload []
  refine ⟨rs, hrs, ?_, ?_⟩
  · rw [loadFromJson, hps]
    simpa using hmap
  · rw [loadFromJson, hps]

/-- Witness for claim C9: the one-element list `[projNew]` exported and
re-imported in an environment where the stored path does not exist. -/
theorem c9_export_import_roundtrip_witness :
    ∃ rs, saveToJson [projNew] = some rs ∧
      ((loadFromJson statNone [] (some rs)).1).map persistedFields =
        [projNew].map persistedFields ∧
      (loadFromJson statNone [] (some rs)).2 = true :=
  c9_export_import_roundtrip statNone [] [projNew] (by decide)

/-- Counterexample for claim C9 as stated: `projFloat` is a classified
`.pyw`-only project, so its `last_modified` still holds the truthy raw
float timestamp from `__init__`; on it `to_dict` raises `AttributeError`
(float has no `isoformat`), and the comprehension in `save_to_json` runs
outside the `try`, so the export crashes before writing anything — the
round trip does not hold for every project list. -/
theorem c9_float_mtime_counterexample :
    serialisableLM projFloat.last_modified = false ∧
    toDict projFloat = none ∧
    saveToJson [projFloat] = none := by
  decide

theorem loadRecords_fail (stat : String → Option Nat) (r : RawRecord)
    (hr : fromDict stat r = none) :
    ∀ (pre : List RawRecord), (∀ x ∈ pre, ∃ p, fromDict stat x = some p) →
      ∀ (rest : List RawRecord) (acc : List Project),
      loadRecords stat (pre ++ r :: rest) acc =
        (acc ++ pre.filterMap (fromDict stat), false) := by
  intro pre
  induction pre with
  | nil => intro _ rest acc; simp [loadRecords, hr]
  | cons x xs ih =>
    intro hall rest acc
    obtain ⟨p, hp⟩ := hall x (by simp)
    rw [List.cons_append, loadRecords, hp]
    dsimp only
    rw [ih (fun y hy => hall y (by simp [hy])) rest (acc ++ [p])]
    simp [List.filterMap_cons, hp]

/-- Claim C8 (corrected): `load_from_json` returns `False` and emits an
error on every failure, and it leaves the in-memory list unchanged when
the failure happens before parsing completes (unreadable file or malformed
JSON) — but when an individual record fails to reconstruct, the list has
already been reset and partially refilled, so it ends up holding exactly
the projects reconstructed from the records before the failing one, not
its previous contents. -/
theorem c8_import_failure (stat : String → Option Nat) (st : List Project) :
    loadFromJson stat st none = (st, false) ∧
    ∀ (pre : List RawRecord) (r : RawRecord) (rest : List RawRecord),
      fromDict stat r = none → (∀ x ∈ pre, ∃ p, fromDict stat x = some p) →
      loadFromJson stat st (some (pre ++ r :: rest)) =
        (pre.filterMap (fromDict stat), false) := by
  refine ⟨rfl, fun pre r rest hr hall => ?_⟩
  rw [loadFromJson]
  simpa using loadRecords_fail stat r hr pre hall rest []

/-- Witness for claim C8 at concrete inputs: a prior one-element list, one
good record and one bad record. -/
theorem c8_import_failure_witness :
    loadFromJson statNone [projPrior] none = ([projPrior], false) ∧
    loadFromJson statNone [projPrior] (some ([recGood] ++ recBad :: [])) =
      ([recGood].filterMap (fromDict statNone), false) :=
  ⟨(c8_import_failure statNone [projPrior]).1,
   (c8_import_failure statNone [projPrior]).2 [recGood] recBad [] (by decide)
     (by intro x hx
         have hx' : x = recGood := by simpa using hx
         exact ⟨projNew, by rw [hx']; decide⟩)⟩

/-- Counterexample for claim C8 as stated: with prior in-memory list
`[projPrior]` and a parseable input whose second record fails to
reconstruct, `load_from_json` returns `False` (with an error emitted) but
the in-memory list is `[projNew]`, not the unchanged `[projPrior]`. -/
theorem c8_not_atomic_counterexample :
    loadFromJson statNone [projPrior] (some [recGood, recBad]) =
      ([projNew], false) ∧
    [projNew] ≠ [projPrior] := by
  decide

/-! ## Similarity theorems -/

/-- Claim C2, amended (corrected): the similarity value always lies in the
closed interval `[0, 1]`; symmetry, however, fails in general (see the
counterexample), because `difflib.SequenceMatcher.ratio` is itself not
symmetric. -/
theorem c2_similarity_bounds (p1 p2 : Project) :
    0 ≤ calculateSimilarity p1 p2 ∧ calculateSimilarity p1 p2 ≤ 1 :=
  ⟨calcSim_nonneg p1 p2, calcSim_le_one p1 p2⟩

/-- Counterexample for claim C2 as stated: two projects with identical
file lists and names `"wxyz"`/`"yxzw"`; the name-ratio is `1/4` in one
direction and `1/2` in the other, so the similarity is `31/40` one way
and `17/20` the other — `_calculate_similarity` is not symmetric. -/
theorem c2_symmetry_counterexample :
    calculateSimilarity projQ1 projQ2 = 31 / 40 ∧
    calculateSimilarity projQ2 projQ1 = 17 / 20 ∧
    calculateSimilarity projQ1 projQ2 ≠ calculateSimilarity projQ2 projQ1 := by
  have h1 : calculateSimilarity projQ1 projQ2 = 31 / 40 := by
    rw [calcSim_of_noSizes _ _ (by decide) (by decide) (by decide)]
    rw [fileSimilarity,
      ratioQ_eval _ _ 1 1 1 (by decide) (by decide) (by decide) (by decide)]
    rw [nameSimilarity,
      ratioQ_eval _ _ 1 4 4 (by decide) (by decide) (by decide) (by decide)]
    norm_num
  have h2 : calculateSimilarity projQ2 projQ1 = 17 / 20 := by
    rw [calcSim_of_noSizes _ _ (by decide) (by decide) (by decide)]
    rw [fileSimilarity,
      ratioQ_eval _ _ 1 1 1 (by decide) (by decide) (by decide) (by decide)]
    rw [nameSimilarity,
      ratioQ_eval _ _ 2 4 4 (by decide) (by decide) (by decide) (by decide)]
    norm_num
  refine ⟨h1, h2, ?_⟩
  rw [h1, h2]
  norm_num

/-- Claim C3, amended (corrected): the `0.6/0.2/0.2` weighting is used
whenever BOTH real sizes have been computed (`is not None`), even when one
of them is `0` — the size component is then `0` but its weight is kept;
the `0.7/0.3` weighting is used exactly when at least one real size is
uncomputed. -/
theorem c3_weight_selection (p1 p2 : Project)
    (h : ¬(p1.python_files = [] ∨ p2.python_files = []))
    (hh : ¬(hashTruthy p1.folder_hash ∧ hashTruthy p2.folder_hash ∧
      p1.folder_hash = p2.folder_hash)) :
    (p1.real_size ≠ none ∧ p2.real_size ≠ none →
      calculateSimilarity p1 p2 = fileSimilarity p1 p2 * (6 / 10) +
        nameSimilarity p1 p2 * (2 / 10) + sizeSimilarity p1 p2 * (2 / 10)) ∧
    (p1.real_size = none ∨ p2.real_size = none →
      calculateSimilarity p1 p2 = fileSimilarity p1 p2 * (7 / 10) +
        nameSimilarity p1 p2 * (3 / 10)) ∧
    (∀ z, p1.real_size = some z → z ≤ 0 → sizeSimilarity p1 p2 = 0) := by
  refine ⟨fun hs => calcSim_of_sizes p1 p2 h hh hs,
    fun hs => calcSim_of_noSizes p1 p2 h hh (by tauto), ?_⟩
  intro z hz hz0
  cases h2 : p2.real_size with
  | none => simp [sizeSimilarity, hz, h2]
  | some s2 =>
    simp only [sizeSimilarity, hz, h2]
    rw [if_neg (by omega)]

/-- Witness for claim C3 at `projR1` (real size `0`) and `projR2` (real
size `5`): the `0.6/0.2/0.2` weighting applies with a zero size term. -/
theorem c3_weight_selection_witness :
    calculateSimilarity projR1 projR2 = fileSimilarity projR1 projR2 * (6 / 10) +
      nameSimilarity projR1 projR2 * (2 / 10) +
      sizeSimilarity projR1 projR2 * (2 / 10) ∧
    sizeSimilarity projR1 projR2 = 0 :=
  ⟨(c3_weight_selection projR1 projR2 (by decide) (by decide)).1 (by decide),
   (c3_weight_selection projR1 projR2 (by decide) (by decide)).2.2 0 (by decide)
     (by norm_num)⟩

/-- Counterexample for claim C3 as stated: with both real sizes computed
and one equal to `0`, the claim predicts the `0.7/0.3` score `7/10`
(`file = 1`, `name = 0`), but the code returns the `0.6/0.2/0.2` score
`3/5`. -/
theorem c3_zero_size_counterexample :
    calculateSimilarity projR1 projR2 = 3 / 5 ∧
    fileSimilarity projR1 projR2 * (7 / 10) +
      nameSimilarity projR1 projR2 * (3 / 10) = 7 / 10 ∧
    calculateSimilarity projR1 projR2 ≠ fileSimilarity projR1 projR2 * (7 / 10) +
      nameSimilarity projR1 projR2 * (3 / 10) := by
  have hf : fileSimilarity projR1 projR2 = 1 := by
    rw [fileSimilarity,
      ratioQ_eval _ _ 1 1 1 (by decide) (by decide) (by decide) (by decide)]
    norm_num
  have hn : nameSimilarity projR1 projR2 = 0 := by
    rw [nameSimilarity,
      ratioQ_eval _ _ 0 1 1 (by decide) (by decide) (by decide) (by decide)]
    norm_num
  have hs : sizeSimilarity projR1 projR2 = 0 := by
    simp only [sizeSimilarity, show projR1.real_size = some 0 from rfl,
      show projR2.real_size = some 5 from rfl]
    rw [if_neg (by omega)]
  have hc : calculateSimilarity projR1 projR2 = 3 / 5 := by
    rw [calcSim_of_sizes _ _ (by decide) (by decide) (by decide), hf, hn, hs]
    norm_num
  refine ⟨hc, by rw [hf, hn]; norm_num, by rw [hc, hf, hn]; norm_num⟩

/-- Claim C4, amended (corrected): equal non-null, non-empty folder hashes
short-circuit the similarity to exactly `1.0` regardless of names, file
lists or sizes — provided both source-file lists are non-empty; the
empty-list check precedes the hash check, so a project with an empty
source-file list gets similarity `0.0` even on a hash match (see the
counterexample). -/
theorem c4_hash_short_circuit (p1 p2 : Project) (h : String)
    (h1 : p1.python_files ≠ []) (h2 : p2.python_files ≠ [])
    (hh1 : p1.folder_hash = some h) (hh2 : p2.folder_hash = some h)
    (hne : h ≠ "") :
    calculateSimilarity p1 p2 = 1 := by
  apply calcSim_of_hash
  · intro hor
    cases hor <;> contradiction
  · refine ⟨?_, ?_, ?_⟩
    · rw [hh1]; simp [hashTruthy, hne]
    · rw [hh2]; simp [hashTruthy, hne]
    · rw [hh1, hh2]

/-- Witness for claim C4: `projS3` and `projS4` share the folder hash
`"h"` but differ in name, file list and real size; the similarity is
exactly `1`. -/
theorem c4_hash_short_circuit_witness : calculateSimilarity projS3 projS4 = 1 :=
  c4_hash_short_circuit projS3 projS4 "h" (by decide) (by decide) rfl rfl
    (by decide)

/-- Counterexample for claim C4 as stated: `projS1` and `projS2` have the
same non-null folder hash `"h"`, but `projS1`'s source-file list is empty,
so the similarity is `0.0`, not `1.0` — the empty-list rule precedes the
hash short-circuit. -/
theorem c4_empty_list_counterexample :
    projS1.folder_hash = some "h" ∧ projS2.folder_hash = some "h" ∧
    calculateSimilarity projS1 projS2 = 0 ∧
    calculateSimilarity projS1 projS2 ≠ 1 := by
  have h0 : calculateSimilarity projS1 projS2 = 0 :=
    calcSim_of_empty _ _ (by decide)
  refine ⟨rfl, rfl, h0, by rw [h0]; norm_num⟩

/-! ## Grouper theorems -/

theorem c5_scenario (A B C : Project)
    (hAB : calculateSimilarity A B = 9/10)
    (hBC : calculateSimilarity B C = 3/4)
    (hAC : calculateSimilarity A C < 7/10)
    (h1 : A.path ≠ B.path) (h2 : A.path ≠ C.path) (h3 : B.path ≠ C.path) :
    (groupDuplicates [A, B, C]).map (fun g => g.projects) = [[A, B, C]] := by
  have hab : (A.path == B.path) = false := beq_eq_false_iff_ne.mpr h1
  have hba : (B.path == A.path) = false := beq_eq_false_iff_ne.mpr (Ne.symm h1)
  have hac : (A.path == C.path) = false := beq_eq_false_iff_ne.mpr h2
  have hca : (C.path == A.path) = false := beq_eq_false_iff_ne.mpr (Ne.symm h2)
  have hbc : (B.path == C.path) = false := beq_eq_false_iff_ne.mpr h3
  have hcb : (C.path == B.path) = false := beq_eq_false_iff_ne.mpr (Ne.symm h3)
  have c1 : SIMILARITY_THRESHOLD ≤ calculateSimilarity A B := by
    rw [hAB, SIMILARITY_THRESHOLD]; norm_num
  have c2 : SIMILARITY_THRESHOLD ≤ calculateSimilarity B C := by
    rw [hBC, SIMILARITY_THRESHOLD]; norm_num
  have c3 : ¬ (SIMILARITY_THRESHOLD ≤ calculateSimilarity A C) := by
    rw [SIMILARITY_THRESHOLD]; exact not_le.mpr hAC
  have c1' : SIMILARITY_THRESHOLD ≤ (9:ℚ)/10 := by rw [SIMILARITY_THRESHOLD]; norm_num
  have c2' : SIMILARITY_THRESHOLD ≤ (3:ℚ)/4 := by rw [SIMILARITY_THRESHOLD]; norm_num
  have hfd : findDuplicates [A, B, C] = [(A, B, 9/10), (B, C, 3/4)] := by
    rw [findDuplicates]
    simp only [pairsAfter, List.map_cons, List.map_nil, List.nil_append,
      List.cons_append, List.append_nil, List.filterMap_cons, List.filterMap_nil]
    simp only [hAB, hBC, if_pos c1', if_pos c2', if_neg c3]
  have hsort : sortDescBy (fun d => d.2.2) [(A, B, (9:ℚ)/10), (B, C, (3:ℚ)/4)]
      = [(A, B, (9:ℚ)/10), (B, C, (3:ℚ)/4)] := by
    norm_num [sortDescBy, insertDescBy]
  rw [groupDuplicates, hfd, if_neg (by simp), hsort]
  rw [groupLoop]
  rw [if_neg (by simp [pathMem])]
  rw [show (List.findIdx? (fun g => projMem A g.projects || projMem B g.projects)
    ([] : List DupGroup)) = none from rfl]
  simp only [addProj, projMem, emptyGroup, List.any_nil, List.any_cons, hab, hba,
    Bool.or_false, Bool.false_or, if_neg (by simp : ¬ (false = true)),
    List.nil_append, simsPut, Bool.and_self, List.append_nil]
  simp [groupLoop, pathMem, projMem, addProj, simsPut, emptyGroup, sortDescBy,
    insertDescBy, List.findIdx?_cons, hab, hba, hac, hca, hbc, hcb, List.getD]

theorem insertDescBy_mem {α : Type} (key : α → ℚ) (y x : α) :
    ∀ l, x ∈ insertDescBy key y l → x = y ∨ x ∈ l := by
  intro l
  induction l with
  | nil => intro h; simp [insertDescBy] at h; exact Or.inl h
  | cons z zs ih =>
    intro h
    rw [insertDescBy] at h
    split at h
    · rcases List.mem_cons.mp h with h' | h'
      · exact Or.inr (by simp [h'])
      · rcases ih h' with h'' | h''
        · exact Or.inl h''
        · exact Or.inr (List.mem_cons_of_mem _ h'')
    · rcases List.mem_cons.mp h with h' | h'
      · exact Or.inl h'
      · exact Or.inr h'

theorem sortDescBy_mem {α : Type} (key : α → ℚ) (x : α) :
    ∀ l, x ∈ sortDescBy key l → x ∈ l := by
  intro l
  induction l with
  | nil => intro h; exact absurd h (by simp [sortDescBy])
  | cons z zs ih =>
    intro h
    rcases insertDescBy_mem key z x _ h with h' | h'
    · simp [h']
    · exact List.mem_cons_of_mem _ (ih h')

theorem pairsAfter_ne : ∀ (ps : List Project),
    ps.Pairwise (fun p q => p.path ≠ q.path) →
    ∀ pq ∈ pairsAfter ps, pq.1.path ≠ pq.2.path := by
  intro ps
  induction ps with
  | nil => intro _ pq h; simp [pairsAfter] at h
  | cons p rest ih =>
    intro hp pq hmem
    rw [pairsAfter, List.mem_append] at hmem
    rcases hmem with h | h
    · obtain ⟨q, hq, rfl⟩ := List.mem_map.mp h
      exact (List.pairwise_cons.mp hp).1 q hq
    · exact ih (List.pairwise_cons.mp hp).2 pq h

theorem findDuplicates_ne (ps : List Project)
    (hps : ps.Pairwise (fun p q => p.path ≠ q.path)) :
    ∀ d ∈ findDuplicates ps, d.1.path ≠ d.2.1.path := by
  intro d hd
  rw [findDuplicates] at hd
  obtain ⟨pq, hpq, hf⟩ := List.mem_filterMap.mp hd
  by_cases hc : SIMILARITY_THRESHOLD ≤ calculateSimilarity pq.1 pq.2
  · rw [if_pos hc] at hf
    cases Option.some.inj hf
    exact pairsAfter_ne ps hps pq hpq
  · rw [if_neg hc] at hf
    cases hf

theorem addProj_len_le (p : Project) (g : DupGroup) (pr : List String) :
    g.projects.length ≤ ((addProj p g pr).1).projects.length := by
  rw [addProj]
  split
  · exact Nat.le_refl _
  · simp

theorem getD_mem_or_default (l : List DupGroup) (i : Nat) :
    l.getD i emptyGroup ∈ l ∨ l.getD i emptyGroup = emptyGroup := by
  rcases h : l.get? i with _ | g
  · right
    simp [List.getD_eq_getElem?_getD, ← List.get?_eq_getElem?, h]
  · left
    have := List.get?_mem h
    simpa [List.getD_eq_getElem?_getD, ← List.get?_eq_getElem?, h] using this

theorem addProj_two (p1 p2 : Project) (pr : List String) (hne : p1.path ≠ p2.path) :
    ((addProj p2 (addProj p1 emptyGroup pr).1 (addProj p1 emptyGroup pr).2).1).projects
      = [p1, p2] := by
  simp only [addProj, projMem, emptyGroup, List.any_nil, Bool.false_eq_true,
    if_false, List.nil_append, List.any_cons, Bool.or_false, beq_iff_eq]
  rw [if_neg hne]
  rfl

theorem groupLoop_min2 : ∀ (dups : List (Project × Project × ℚ))
    (groups : List DupGroup) (processed : List String),
    (∀ d ∈ dups, d.1.path ≠ d.2.1.path) →
    (∀ g ∈ groups, 2 ≤ g.projects.length) →
    ∀ g ∈ groupLoop dups groups processed, 2 ≤ g.projects.length := by
  intro dups
  induction dups with
  | nil =>
    intro groups processed _ hg g hgmem
    rw [groupLoop] at hgmem
    exact hg g hgmem
  | cons d rest ih =>
    rcases d with ⟨p1, p2, s⟩
    intro groups processed hne hg g hgmem
    have hp12 : p1.path ≠ p2.path := hne (p1, p2, s) (by simp)
    rw [groupLoop] at hgmem
    split at hgmem
    · exact ih groups processed (fun d hd => hne d (by simp [hd])) hg g hgmem
    · rcases hidx : List.findIdx?
          (fun g => projMem p1 g.projects || projMem p2 g.projects) groups with _ | idx
      all_goals rw [hidx] at hgmem
      all_goals dsimp only at hgmem
      · -- no existing group: a fresh two-member group is appended
        refine ih _ _ (fun d hd => hne d (by simp [hd])) ?_ g hgmem
        intro g' hg'
        rcases List.mem_append.mp hg' with h' | h'
        · exact hg g' h'
        · have hgone : g' = { (addProj p2 (addProj p1 emptyGroup processed).1
              (addProj p1 emptyGroup processed).2).1 with
              sims := simsPut (p2.path, p1.path) s (simsPut (p1.path, p2.path) s
                (addProj p2 (addProj p1 emptyGroup processed).1
                  (addProj p1 emptyGroup processed).2).1.sims) } := by
            simpa using h'
          rw [hgone]
          simp only []
          rw [addProj_two p1 p2 processed hp12]
          simp
      · -- existing group at idx grows (or, if idx is out of range, the
        -- default empty group becomes a fresh two-member group)
        refine ih _ _ (fun d hd => hne d (by simp [hd])) ?_ g hgmem
        intro g' hg'
        rcases List.mem_or_eq_of_mem_set hg' with h' | h'
        · exact hg g' h'
        · rw [h']
          simp only []
          rcases getD_mem_or_default groups idx with hm | hm
          · have h2 : 2 ≤ (groups.getD idx emptyGroup).projects.length := hg _ hm
            have l1 := addProj_len_le p1 (groups.getD idx emptyGroup) processed
            have l2 := addProj_len_le p2 (addProj p1 (groups.getD idx emptyGroup) processed).1
              (addProj p1 (groups.getD idx emptyGroup) processed).2
            omega
          · rw [hm, addProj_two p1 p2 processed hp12]
            simp

theorem groupDuplicates_min_two (ps : List Project)
    (hps : ps.Pairwise (fun p q => p.path ≠ q.path)) :
    ∀ g ∈ groupDuplicates ps, 2 ≤ g.projects.length := by
  intro g hg
  simp only [groupDuplicates] at hg
  split at hg
  · simp at hg
  · have h1 := sortDescBy_mem _ g _ hg
    exact groupLoop_min2 _ [] []
      (fun d hd => findDuplicates_ne ps hps d (sortDescBy_mem _ d _ hd))
      (by simp) g h1

/-- Claim C5, amended (corrected): (1) with `similarity(A,B) = 0.9` and
`similarity(B,C) = 0.75` the only pairs at or above the 0.7 threshold,
`group_duplicates` chains membership transitively and produces exactly one
group `{A, B, C}`; (2) every output group has at least 2 members PROVIDED
the input projects have pairwise-distinct paths — with two records sharing
one path, a group of size 1 can be produced (see the counterexample),
because membership tests compare projects by path. -/
theorem c5_grouping :
    (∀ A B C : Project, calculateSimilarity A B = 9/10 →
      calculateSimilarity B C = 3/4 → calculateSimilarity A C < 7/10 →
      A.path ≠ B.path → A.path ≠ C.path → B.path ≠ C.path →
      (groupDuplicates [A, B, C]).map (fun g => g.projects) = [[A, B, C]]) ∧
    (∀ ps : List Project, ps.Pairwise (fun p q => p.path ≠ q.path) →
      ∀ g ∈ groupDuplicates ps, 2 ≤ g.projects.length) :=
  ⟨fun A B C hAB hBC hAC h1 h2 h3 => c5_scenario A B C hAB hBC hAC h1 h2 h3,
   groupDuplicates_min_two⟩

theorem simAB_eval : calculateSimilarity projA projB = 9/10 := by
  have hsz : sizeSimilarity projA projB = ((4:Int):ℚ)/((8:Int):ℚ) := by
    simp only [sizeSimilarity, show projA.real_size = some 8 from rfl,
      show projB.real_size = some 4 from rfl]
    rw [if_pos (by omega), show min (8:Int) 4 = 4 from by decide,
      show max (8:Int) 4 = 8 from by decide]
  rw [calcSim_of_sizes _ _ (by decide) (by decide) (by decide)]
  rw [fileSimilarity,
    ratioQ_eval _ _ 1 1 1 (by decide) (by decide) (by decide) (by decide)]
  rw [nameSimilarity,
    ratioQ_eval _ _ 1 1 1 (by decide) (by decide) (by decide) (by decide)]
  rw [hsz]
  push_cast
  norm_num

theorem simBC_eval : calculateSimilarity projB projC = 3/4 := by
  have hsz : sizeSimilarity projB projC = ((3:Int):ℚ)/((4:Int):ℚ) := by
    simp only [sizeSimilarity, show projB.real_size = some 4 from rfl,
      show projC.real_size = some 3 from rfl]
    rw [if_pos (by omega), show min (4:Int) 3 = 3 from by decide,
      show max (4:Int) 3 = 4 from by decide]
  rw [calcSim_of_sizes _ _ (by decide) (by decide) (by decide)]
  rw [fileSimilarity,
    ratioQ_eval _ _ 1 1 2 (by decide) (by decide) (by decide) (by decide)]
  rw [nameSimilarity,
    ratioQ_eval _ _ 1 1 1 (by decide) (by decide) (by decide) (by decide)]
  rw [hsz]
  push_cast
  norm_num

theorem simAC_eval : calculateSimilarity projA projC = 27/40 := by
  have hsz : sizeSimilarity projA projC = ((3:Int):ℚ)/((8:Int):ℚ) := by
    simp only [sizeSimilarity, show projA.real_size = some 8 from rfl,
      show projC.real_size = some 3 from rfl]
    rw [if_pos (by omega), show min (8:Int) 3 = 3 from by decide,
      show max (8:Int) 3 = 8 from by decide]
  rw [calcSim_of_sizes _ _ (by decide) (by decide) (by decide)]
  rw [fileSimilarity,
    ratioQ_eval _ _ 1 1 2 (by decide) (by decide) (by decide) (by decide)]
  rw [nameSimilarity,
    ratioQ_eval _ _ 1 1 1 (by decide) (by decide) (by decide) (by decide)]
  rw [hsz]
  push_cast
  norm_num

/-- Witness for claim C5: the concrete projects `projA`, `projB`, `projC`
realise similarities `9/10`, `3/4` and `27/40` and are grouped into the
single chained group. -/
theorem c5_grouping_witness :
    (groupDuplicates [projA, projB, projC]).map (fun g => g.projects)
      = [[projA, projB, projC]] ∧
    ∀ g ∈ groupDuplicates [projA, projB, projC], 2 ≤ g.projects.length :=
  ⟨c5_grouping.1 projA projB projC simAB_eval simBC_eval
      (by rw [simAC_eval]; norm_num) (by decide) (by decide) (by decide),
   c5_grouping.2 [projA, projB, projC] (by decide)⟩

/-- Counterexample for claim C5 as stated: the input list holds two
distinct records with the same path `"P"` (similarity `7/10`, at the
threshold); `group_duplicates` creates a group, adds the first record, and
then skips the second because `in` compares by path — the output is one
group with a single member, violating the minimum-2 guarantee. -/
theorem c5_singleton_counterexample :
    (groupDuplicates [projDupA, projDupB]).map (fun g => g.projects.length)
      = [1] := by
  have hs : calculateSimilarity projDupA projDupB = 7/10 := by
    rw [calcSim_of_noSizes _ _ (by decide) (by decide) (by decide)]
    rw [fileSimilarity,
      ratioQ_eval _ _ 1 1 1 (by decide) (by decide) (by decide) (by decide)]
    rw [nameSimilarity,
      ratioQ_eval _ _ 0 1 1 (by decide) (by decide) (by decide) (by decide)]
    norm_num
  have hfd : findDuplicates [projDupA, projDupB]
      = [(projDupA, projDupB, 7/10)] := by
    rw [findDuplicates]
    simp only [pairsAfter, List.map_cons, List.map_nil, List.append_nil,
      List.nil_append, List.filterMap_cons, List.filterMap_nil]
    simp only [hs, if_pos (show SIMILARITY_THRESHOLD ≤ (7:ℚ)/10 from by
      rw [SIMILARITY_THRESHOLD])]
  have hpp : (projDupA.path == projDupB.path) = true := by decide
  rw [groupDuplicates]
  simp [hfd, groupLoop, pathMem, projMem, addProj, simsPut, emptyGroup,
    sortDescBy, insertDescBy, hpp]

end Duproject
